import Mathlib

/-!
Verification of the pcwgo asynchronous job orchestrator (jobs/jobs.go)
against its natural-language specification.

The Go database layer (db/jobs.go, first revision, the one with the
`text` column and the join semantics of `Start`) is embedded as a pure
state-passing model: the jobs table is a list of rows, every SQL
statement consumes one entry of an explicit fault schedule (`true`
meaning the statement returns an error), and the status table joined by
`FindJobByID` is the fixed map `statusText` that `CreateTableJobs`
inserts.  The concurrent orchestrator (unbuffered queue, dispatcher
loop, task goroutines, `Close`) is embedded further below as a labelled
transition system `Step` on a system state `Sys`.
-/

/-- Status id constants of db/jobs.go (iota constants, 0..7). -/

def StatusIDFailed : Int := 0

/-- Status id of a running job. -/

def StatusIDRunning : Int := 1

/-- Status id of a finished job. -/

def StatusIDDone : Int := 2

/-- Status id of an empty book. -/

def StatusIDEmpty : Int := 3

/-- Status id of a profiled book. -/

def StatusIDProfiled : Int := 4

/-- Status id of a post-corrected book. -/

def StatusIDPostCorrected : Int := 5

/-- Status id of a book with an extended lexicon. -/

def StatusIDExtendedLexicon : Int := 6

/-- Status id of a book profiled with an extended lexicon. -/

def StatusIDProfiledWithEL : Int := 7

/-- Status name constants of db/jobs.go. -/

def StatusFailed : String := "failed"

/-- Status name of a running job. -/

def StatusRunning : String := "running"

/-- Status name of a finished job. -/

def StatusDone : String := "done"

/-- Status name of an empty book. -/

def StatusEmpty : String := "empty"

/-- Status name of a profiled book. -/

def StatusProfiled : String := "profiled"

/-- Status name of a post-corrected book. -/

def StatusPostCorrected : String := "post-corrected"

/-- Status name of a book with an extended lexicon. -/

def StatusExtendedLexicon : String := "extended-lexicon"

/-- Status name of a book profiled with an extended lexicon. -/

def StatusProfiledWithEL : String := "profiled-with-el"

/-- One row of the jobs table: id (the book id, primary key), statusid,
text (the job name) and timestamp, as in the CREATE TABLE statement of
db/jobs.go. -/

structure Row where
  id : Int
  statusid : Int
  text : String
  timestamp : Int
deriving DecidableEq, Repr

/-- api.JobStatus of api/api.go (the struct scanned by FindJobByID). -/

structure JobStatus where
  JobID : Int
  BookID : Int
  StatusID : Int
  StatusName : String
  JobName : String
  Timestamp : Int
deriving DecidableEq, Repr

/-- State of the SQL database as seen through db/jobs.go: the rows of
the jobs table, the current value of time.Now().Unix(), and a schedule
of statement faults, one Boolean per executed statement (`true` means
that statement returns an error). -/

structure DBState where
  rows : List Row
  now : Int
  faults : List Bool
deriving DecidableEq, Repr

/-- Consume the next fault-schedule entry; an exhausted schedule never
faults again. -/

def popFault (db : DBState) : Bool × DBState :=
  (db.faults.headD false, { db with faults := db.faults.tail })

/-- First row of the jobs table with the given id (the primary key makes
it unique in well-formed tables). -/

def findRow (rows : List Row) (id : Int) : Option Row :=
  rows.find? fun row => row.id == id

/-- Contents of the status table that CreateTableJobs inserts, as the
map from a status id to its text. -/

def statusText (i : Int) : Option String :=
  if i = StatusIDFailed then some StatusFailed
  else if i = StatusIDRunning then some StatusRunning
  else if i = StatusIDDone then some StatusDone
  else if i = StatusIDEmpty then some StatusEmpty
  else if i = StatusIDProfiled then some StatusProfiled
  else if i = StatusIDPostCorrected then some StatusPostCorrected
  else if i = StatusIDExtendedLexicon then some StatusExtendedLexicon
  else if i = StatusIDProfiledWithEL then some StatusProfiledWithEL
  else none

/-- Result row of FindJobByID's SELECT: the jobs row joined with the
status table (no result if the row's status id has no status-table
entry), scanned into api.JobStatus; the Go code then copies JobID into
BookID. -/

def selectJobStatus (rows : List Row) (jobID : Int) : Option JobStatus :=
  match findRow rows jobID with
  | none => none
  | some row =>
    match statusText row.statusid with
    | none => none
    | some sname =>
      some { JobID := row.id, BookID := row.id, StatusID := row.statusid,
             StatusName := sname, JobName := row.text, Timestamp := row.timestamp }

/-- db.FindJobByID: returns (job?, erred) together with the database
state after the query.  (some j, false) is found, (none, false) is not
found, (none, true) is a query error. -/

def FindJobByID (db : DBState) (jobID : Int) : (Option JobStatus × Bool) × DBState :=
  let p := popFault db
  if p.1 then ((none, true), p.2)
  else ((selectJobStatus p.2.rows jobID, false), p.2)

/-- db.NewJob: INSERT a running row for the book; the book id is the job
id.  The insert fails on a statement fault or on a primary-key
violation (a row with that id already exists). -/

def NewJob (db : DBState) (bookID : Int) (text : String) : (Int × Bool) × DBState :=
  let p := popFault db
  if p.1 then ((bookID, true), p.2)
  else
    match findRow p.2.rows bookID with
    | some _ => ((bookID, true), p.2)
    | none =>
      ((bookID, false),
       { p.2 with rows := p.2.rows ++ [{ id := bookID, statusid := StatusIDRunning,
                                         text := text, timestamp := p.2.now }] })

/-- Row update performed by db.SetJobStatus (UPDATE ... WHERE id=jobID). -/

def updateRows (rows : List Row) (jobID statusID now : Int) : List Row :=
  rows.map fun row =>
    if row.id = jobID then { row with statusid := statusID, timestamp := now } else row

/-- db.SetJobStatus: set a new status (and timestamp) for a job; returns
whether the statement erred. -/

def SetJobStatus (db : DBState) (jobID statusID : Int) : Bool × DBState :=
  let p := popFault db
  if p.1 then (true, p.2)
  else (false, { p.2 with rows := updateRows p.2.rows jobID statusID p.2.now })

/-- Row update performed by db.SetJobStatusWithText. -/

def updateRowsText (rows : List Row) (jobID statusID : Int) (text : String) (now : Int) :
    List Row :=
  rows.map fun row =>
    if row.id = jobID then
      { row with statusid := statusID, text := text, timestamp := now }
    else row

/-- db.SetJobStatusWithText: set a new status and name for a job. -/

def SetJobStatusWithText (db : DBState) (jobID statusID : Int) (text : String) :
    Bool × DBState :=
  let p := popFault db
  if p.1 then (true, p.2)
  else (false, { p.2 with rows := updateRowsText p.2.rows jobID statusID text p.2.now })

/-- Synthetic status returned by jobs.Job on a failed or empty lookup:
only StatusID and StatusName are set, the other fields keep their Go
zero values. -/

def failedJobStatus : JobStatus :=
  { JobID := 0, BookID := 0, StatusID := StatusIDFailed, StatusName := StatusFailed,
    JobName := "", Timestamp := 0 }

/-- jobs.Job: read the row directly from the store; on a read error or a
missing row return the synthetic Failed status instead of propagating
the error. -/

def Job (db : DBState) (id : Int) : JobStatus × DBState :=
  let fr := FindJobByID db id
  match fr.1 with
  | (_, true) => (failedJobStatus, fr.2)
  | (none, false) => (failedJobStatus, fr.2)
  | (some j, false) => (j, fr.2)

/-- jobs.Runner: the book id and name of a submitted job.  Its Run entry
point is modelled in the transition system, where a launched task may
finish with either result. -/

structure Runner where
  BookID : Int
  Name : String
deriving DecidableEq, Repr

/-- Outcome of one jobs.Start call: the returned id, whether a non-nil
error was returned, the id carried by the start message sent to the
queue (if the call reaches the send), and the database state
afterwards. -/

structure StartResult where
  id : Int
  erred : Bool
  sent : Option Int
  db : DBState
deriving DecidableEq, Repr

/-- jobs.Start: look up the row for the runner's book id; a running row
is joined (the id is re-read via Job and returned without a send),
otherwise the existing row is overwritten in place or a fresh one
created with status Running, and a start message with the job id is
sent. -/

def Start (db : DBState) (r : Runner) : StartResult :=
  let fr := FindJobByID db r.BookID
  match fr.1 with
  | (_, true) => { id := 0, erred := true, sent := none, db := fr.2 }
  | (some job, false) =>
    if job.StatusID = StatusIDRunning then
      let jr := Job fr.2 r.BookID
      { id := jr.1.JobID, erred := false, sent := none, db := jr.2 }
    else
      let sr := SetJobStatusWithText fr.2 job.JobID StatusIDRunning r.Name
      if sr.1 then { id := 0, erred := true, sent := none, db := sr.2 }
      else { id := job.JobID, erred := false, sent := some job.JobID, db := sr.2 }
  | (none, false) =>
    let nr := NewJob fr.2 r.BookID r.Name
    if nr.1.2 then { id := 0, erred := true, sent := none, db := nr.2 }
    else { id := nr.1.1, erred := false, sent := some nr.1.1, db := nr.2 }

/-!
The labelled transition system for the orchestrator of jobs/jobs.go.

The dispatcher goroutine `jobs()` consumes one message at a time from
the unbuffered channel `js.queue`.  An unbuffered channel send is a
rendezvous: the sender stays blocked until the dispatcher receives the
message, and only then continues.  A send on a closed channel panics,
which kills the whole Go process; closing a channel with blocked
senders also panics those senders.  The model mirrors this: blocked
start-senders and tasks that finished their Run are delivered to the
dispatcher one at a time, and `panicked` is a terminal flag that stops
every further transition.

Each start message and the task it spawns carry a ghost token `tok`
(the value of `nextTok` at the Start call) used only to state trace
properties; it has no counterpart in the Go struct `s`.
-/

/-- Control messages of the dispatcher queue (the Go struct s): a start
message with the job id, a finished message with the job id and the
result of Run, or the stop signal sent by Close. -/

inductive Msg where
  | start (tok : Nat) (id : Int)
  | finished (tok : Nat) (id : Int) (err : Bool)
  | stop
deriving DecidableEq, Repr

/-- Ghost trace events: a successful Job Store write of status Running
performed by Start, a successful write of a final status (Done or
Failed) performed by the dispatcher loop, and the return of the first
Close call. -/

inductive Event where
  | wroteRunning (tok : Nat) (id : Int)
  | wroteFinal (tok : Nat) (id : Int) (statusid : Int)
  | closeRet
deriving DecidableEq, Repr

/-- Phase of a task goroutine: executing Run, blocked sending its
finished message, or past the send and about to call wg.Done. -/

inductive TaskPhase where
  | running
  | sending (err : Bool)
  | exiting
deriving DecidableEq, Repr

/-- One task goroutine spawned by the dispatcher. -/

structure JobTask where
  tok : Nat
  id : Int
  phase : TaskPhase
deriving DecidableEq, Repr

/-- State of the dispatcher loop: waiting in the range over the queue,
holding one received message whose body has not run yet, or exited
after the queue was closed. -/

inductive Disp where
  | idle
  | busy (m : Msg)
  | exited
deriving DecidableEq, Repr

/-- Progress of the one effective Close call: not started, blocked
sending stop, blocked in wg.Wait, or returned. -/

inductive ClosePhase where
  | idle
  | sendingStop
  | waiting
  | done
deriving DecidableEq, Repr

/-- Whole-system state: the shared database, the dispatcher-owned
cancel-function keys and WaitGroup counter, the queue flags, the
dispatcher, the tasks, the blocked Start senders, the ghost token
supply, the ghost event trace (newest first) and the panic flag. -/

structure Sys where
  db : DBState
  cancelFuncs : List Int
  wg : Nat
  queueOpen : Bool
  onceDone : Bool
  closeState : ClosePhase
  disp : Disp
  tasks : List JobTask
  startSenders : List (Nat × Int)
  nextTok : Nat
  trace : List Event
  panicked : Bool
deriving DecidableEq, Repr

/-- The state right after jobs.Init: empty bookkeeping, open queue,
dispatcher waiting; the jobs table may hold rows from earlier process
runs. -/

def initSys (db0 : DBState) : Sys :=
  { db := db0, cancelFuncs := [], wg := 0, queueOpen := true, onceDone := false,
    closeState := ClosePhase.idle, disp := Disp.idle, tasks := [], startSenders := [],
    nextTok := 0, trace := [], panicked := false }

/-- One jobs.Start call: run the database part atomically, then, if the
call reached its send, either become a blocked start-sender (open
queue) or panic (send on a closed queue).  A successful Running write
is recorded in the ghost trace. -/

def doStart (s : Sys) (r : Runner) : Sys :=
  let res := Start s.db r
  match res.sent with
  | none => { s with db := res.db }
  | some id =>
    if s.queueOpen then
      { s with db := res.db,
               startSenders := s.startSenders ++ [(s.nextTok, id)],
               trace := Event.wroteRunning s.nextTok id :: s.trace,
               nextTok := s.nextTok + 1 }
    else
      { s with db := res.db,
               trace := Event.wroteRunning s.nextTok id :: s.trace,
               nextTok := s.nextTok + 1,
               panicked := true }

/-- One jobs.Job call: a direct store read; it only consumes a fault
entry and never touches orchestrator state. -/

def doJobCall (s : Sys) (id : Int) : Sys :=
  { s with db := (Job s.db id).2 }

/-- One jobs.Close call: via sync.Once only the first call runs the
shutdown body (send stop, wait, close the queue); every later call
returns nil immediately with no effect. -/

def doCloseCall (s : Sys) : Sys :=
  if s.onceDone then s
  else { s with onceDone := true, closeState := ClosePhase.sendingStop }

/-- Rendezvous of a blocked start-sender with the dispatcher's
receive. -/

def doDeliverStart (s : Sys) (tok : Nat) (id : Int) : Sys :=
  { s with startSenders := s.startSenders.erase (tok, id),
           disp := Disp.busy (Msg.start tok id) }

/-- Rendezvous of a task's finished message with the dispatcher's
receive; the task continues towards its deferred wg.Done. -/

def doDeliverFin (s : Sys) (t : JobTask) (err : Bool) : Sys :=
  { s with tasks := s.tasks.erase t ++ [{ tok := t.tok, id := t.id, phase := TaskPhase.exiting }],
           disp := Disp.busy (Msg.finished t.tok t.id err) }

/-- Rendezvous of Close's stop message with the dispatcher's receive;
Close moves on to wg.Wait. -/

def doDeliverStop (s : Sys) : Sys :=
  { s with disp := Disp.busy Msg.stop, closeState := ClosePhase.waiting }

/-- Body of the dispatcher loop for one received message, mirroring
jobs().  stop invokes every recorded cancel function (cooperative, no
state change, the map is not cleared); a start message records the
cancel function, increments the WaitGroup and spawns the task; a
finished message removes the cancel function and persists Done or
Failed, where a failing write is only logged. -/

def doProcess (s : Sys) (m : Msg) : Sys :=
  match m with
  | Msg.stop => { s with disp := Disp.idle }
  | Msg.start tok id =>
    { s with cancelFuncs := if id ∈ s.cancelFuncs then s.cancelFuncs else id :: s.cancelFuncs,
             wg := s.wg + 1,
             tasks := s.tasks ++ [{ tok := tok, id := id, phase := TaskPhase.running }],
             disp := Disp.idle }
  | Msg.finished tok id err =>
    let st := if err then StatusIDFailed else StatusIDDone
    let res := SetJobStatus s.db id st
    { s with cancelFuncs := s.cancelFuncs.erase id,
             db := res.2,
             trace := if res.1 then s.trace else Event.wroteFinal tok id st :: s.trace,
             disp := Disp.idle }

/-- A task's Run returns with result err and the task executes its
queue send: on an open queue it becomes a blocked sender, on a closed
queue the send panics. -/

def doTaskFinish (s : Sys) (t : JobTask) (err : Bool) : Sys :=
  if s.queueOpen then
    { s with tasks := s.tasks.erase t ++ [{ tok := t.tok, id := t.id, phase := TaskPhase.sending err }] }
  else { s with panicked := true }

/-- A task past its send runs its deferred wg.Done and exits. -/

def doWgDone (s : Sys) (t : JobTask) : Sys :=
  { s with tasks := s.tasks.erase t, wg := s.wg - 1 }

/-- wg.Wait observes a zero counter: Close closes the queue and
returns.  Closing a channel with blocked senders panics them. -/

def doCloseFinish (s : Sys) : Sys :=
  { s with queueOpen := false, closeState := ClosePhase.done,
           trace := Event.closeRet :: s.trace,
           panicked := s.panicked || !s.startSenders.isEmpty ||
             s.tasks.any fun t => match t.phase with
               | TaskPhase.sending _ => true
               | _ => false }

/-- The dispatcher's receive on the closed, drained queue returns with
ok=false and the range loop exits. -/

def doDispExit (s : Sys) : Sys :=
  { s with disp := Disp.exited }

/-- Labels naming the transition that was taken. -/

inductive Label where
  | startL (r : Runner)
  | jobL (id : Int)
  | closeL
  | deliverStartL (tok : Nat) (id : Int)
  | deliverFinL (t : JobTask) (err : Bool)
  | deliverStopL
  | processL (m : Msg)
  | taskFinishL (t : JobTask) (err : Bool)
  | wgDoneL (t : JobTask)
  | closeFinishL
  | dispExitL
deriving DecidableEq, Repr

/-- One interleaving step of the whole system.  A panicked process takes
no further step. -/

inductive Step : Sys → Label → Sys → Prop where
  | startCall (s : Sys) (r : Runner) (hp : s.panicked = false) :
      Step s (Label.startL r) (doStart s r)
  | jobCall (s : Sys) (id : Int) (hp : s.panicked = false) :
      Step s (Label.jobL id) (doJobCall s id)
  | closeCall (s : Sys) (hp : s.panicked = false) :
      Step s Label.closeL (doCloseCall s)
  | deliverStart (s : Sys) (tok : Nat) (id : Int) (hp : s.panicked = false)
      (hd : s.disp = Disp.idle) (hm : (tok, id) ∈ s.startSenders) :
      Step s (Label.deliverStartL tok id) (doDeliverStart s tok id)
  | deliverFin (s : Sys) (t : JobTask) (err : Bool) (hp : s.panicked = false)
      (hd : s.disp = Disp.idle) (hm : t ∈ s.tasks) (hph : t.phase = TaskPhase.sending err) :
      Step s (Label.deliverFinL t err) (doDeliverFin s t err)
  | deliverStop (s : Sys) (hp : s.panicked = false) (hd : s.disp = Disp.idle)
      (hc : s.closeState = ClosePhase.sendingStop) :
      Step s Label.deliverStopL (doDeliverStop s)
  | process (s : Sys) (m : Msg) (hp : s.panicked = false) (hd : s.disp = Disp.busy m) :
      Step s (Label.processL m) (doProcess s m)
  | taskFinish (s : Sys) (t : JobTask) (err : Bool) (hp : s.panicked = false)
      (hm : t ∈ s.tasks) (hph : t.phase = TaskPhase.running) :
      Step s (Label.taskFinishL t err) (doTaskFinish s t err)
  | wgDone (s : Sys) (t : JobTask) (hp : s.panicked = false)
      (hm : t ∈ s.tasks) (hph : t.phase = TaskPhase.exiting) :
      Step s (Label.wgDoneL t) (doWgDone s t)
  | closeFinish (s : Sys) (hp : s.panicked = false) (hc : s.closeState = ClosePhase.waiting)
      (hw : s.wg = 0) :
      Step s Label.closeFinishL (doCloseFinish s)
  | dispExit (s : Sys) (hp : s.panicked = false) (hd : s.disp = Disp.idle)
      (hq : s.queueOpen = false) :
      Step s Label.dispExitL (doDispExit s)

/-- States reachable from some freshly initialized system. -/

inductive Reach : Sys → Prop where
  | init (db0 : DBState) : Reach (initSys db0)
  | step {s t : Sys} {l : Label} : Reach s → Step s l t → Reach t

/-- Whether a ghost event is a Job Store write performed by the
dispatcher loop (a Done or Failed write for a finished message). -/

def isFinalWrite : Event → Bool
  | Event.wroteFinal _ _ _ => true
  | _ => false

/-- Number of dispatcher Job Store writes in a list of events. -/

def dwrites (l : List Event) : Nat := (l.filter isFinalWrite).length

/-- Number of dispatcher Job Store writes that happened after the first
Close call returned (the trace is newest first, so these are the events
before the closeRet marker). -/

def postCloseW (t : List Event) : Nat :=
  dwrites (t.takeWhile fun e => !(e == Event.closeRet))

/-- 1 when the dispatcher holds a still unprocessed finished message. -/

def busyFin (s : Sys) : Nat :=
  match s.disp with
  | Disp.busy (Msg.finished _ _ _) => 1
  | _ => 0

/-!
A concrete execution: one job for book 1 runs to completion while Close
races with the dispatcher.  The task's finished message is delivered to
the dispatcher, the task runs its deferred wg.Done, Close's wg.Wait
unblocks and Close returns — all before the dispatcher has processed
the finished message, so the final Done write to the Job Store happens
after Close has returned.  A subsequent Start call for book 2 then
reaches its queue send and panics on the closed queue.
-/

/-- Initial database: empty jobs table, no statement faults. -/

def exDB0 : DBState := { rows := [], now := 0, faults := [] }

/-- Runner for book 1. -/

def exR1 : Runner := { BookID := 1, Name := "p" }

/-- Runner for book 2. -/

def exR2 : Runner := { BookID := 2, Name := "q" }

/-- Freshly initialized system. -/

def ex0 : Sys := initSys exDB0

/-- After Start(book 1): row (1, Running) inserted, start sender pending. -/

def ex1 : Sys := doStart ex0 exR1

/-- The start message is delivered to the dispatcher. -/

def ex2 : Sys := doDeliverStart ex1 0 1

/-- The dispatcher processes the start message and spawns the task. -/

def ex3 : Sys := doProcess ex2 (Msg.start 0 1)

/-- The spawned task for book 1. -/

def exT1 : JobTask := { tok := 0, id := 1, phase := TaskPhase.running }

/-- The task's Run returns nil and the task blocks sending finished. -/

def ex4 : Sys := doTaskFinish ex3 exT1 false

/-- Close is called: sync.Once fires, Close blocks sending stop. -/

def ex5 : Sys := doCloseCall ex4

/-- The stop message is delivered; Close moves into wg.Wait. -/

def ex6 : Sys := doDeliverStop ex5

/-- The dispatcher processes stop (cancels all running jobs). -/

def ex7 : Sys := doProcess ex6 Msg.stop

/-- The task, now blocked on its send. -/

def exT2 : JobTask := { tok := 0, id := 1, phase := TaskPhase.sending false }

/-- The finished message is delivered; the task heads for wg.Done. -/

def ex8 : Sys := doDeliverFin ex7 exT2 false

/-- The task past its send. -/

def exT3 : JobTask := { tok := 0, id := 1, phase := TaskPhase.exiting }

/-- The task runs wg.Done and exits; the counter reaches zero. -/

def ex9 : Sys := doWgDone ex8 exT3

/-- Close's wg.Wait unblocks, the queue is closed and Close returns,
while the dispatcher still holds the unprocessed finished message. -/

def ex10 : Sys := doCloseFinish ex9

/-- Only now does the dispatcher process the finished message and write
Done to the Job Store — after Close has returned. -/

def ex11 : Sys := doProcess ex10 (Msg.finished 0 1 false)

/-- A Start call for book 2 after Close: the row is created, the send
hits the closed queue and the process panics. -/

def ex12 : Sys := doStart ex11 exR2

/-- Whether a task is blocked sending its finished message. -/

def JobTask.isSending (t : JobTask) : Bool :=
  match t.phase with
  | TaskPhase.sending _ => true
  | _ => false

/-- Inductive invariant of the orchestrator transition system. -/

structure SysInv (s : Sys) : Prop where
  wgLen : s.wg = s.tasks.length
  senderW : ∀ tok id, (tok, id) ∈ s.startSenders → Event.wroteRunning tok id ∈ s.trace
  busyStartW : ∀ tok id, s.disp = Disp.busy (Msg.start tok id) →
    Event.wroteRunning tok id ∈ s.trace
  taskW : ∀ t, t ∈ s.tasks → Event.wroteRunning t.tok t.id ∈ s.trace
  busyFinW : ∀ tok id err, s.disp = Disp.busy (Msg.finished tok id err) →
    Event.wroteRunning tok id ∈ s.trace
  finalAfterRun : ∀ tok id st pre post,
    s.trace = pre ++ Event.wroteFinal tok id st :: post → Event.wroteRunning tok id ∈ post
  retDone : Event.closeRet ∈ s.trace → s.closeState = ClosePhase.done
  openIffNotDone : s.queueOpen = true ↔ s.closeState ≠ ClosePhase.done
  closeOnce : s.closeState ≠ ClosePhase.idle → s.onceDone = true
  doneQuiet : s.closeState = ClosePhase.done → s.panicked = false →
    s.startSenders = [] ∧ ∀ t, t ∈ s.tasks → t.isSending = false
  postBound : s.closeState = ClosePhase.done → postCloseW s.trace + busyFin s ≤ 1

/-- Store for the claim C1 counterexample: book 1 has a Running row and
the second statement of the schedule faults. -/

def cexDB1 : DBState :=
  { rows := [{ id := 1, statusid := 1, text := "p", timestamp := 0 }], now := 0,
    faults := [false, true] }

/-- Store for the start_join_amended witness: book 7 has a running row
and no faults are scheduled. -/

def wDB1 : DBState :=
  { rows := [{ id := 7, statusid := 1, text := "p", timestamp := 3 }], now := 4,
    faults := [] }

/-- The running row of wDB1. -/

def wRow1 : Row := { id := 7, statusid := 1, text := "p", timestamp := 3 }

example :
    Start { rows := [], now := 5, faults := [] } { BookID := 42, Name := "profile" } =
      { id := 42, erred := false, sent := some 42,
        db := { rows := [{ id := 42, statusid := 1, text := "profile", timestamp := 5 }],
                now := 5, faults := [] } } := by
  decide

example :
    (Start { rows := [{ id := 7, statusid := 1, text := "p", timestamp := 0 }], now := 1,
             faults := [] } { BookID := 7, Name := "q" }).id = 7 := by
  decide

example :
    (Start { rows := [{ id := 7, statusid := 1, text := "p", timestamp := 0 }], now := 1,
             faults := [false, true] } { BookID := 7, Name := "q" }).id = 0 := by
  decide

example : (Job { rows := [], now := 0, faults := [] } 999).1.StatusID = StatusIDFailed := by
  decide

example : ex11.trace =
    [Event.wroteFinal 0 1 StatusIDDone, Event.closeRet, Event.wroteRunning 0 1] := by
  decide

example : ex11.closeState = ClosePhase.done ∧ ex11.panicked = false := by decide

example : ex12.panicked = true := by decide

/-- The racy completion state ex11 is reachable. -/
theorem reach_ex11 : Reach ex11 := by
  have h0 : Reach ex0 := Reach.init exDB0
  have h1 : Reach ex1 := Reach.step h0 (Step.startCall ex0 exR1 (by decide))
  have h2 : Reach ex2 :=
    Reach.step h1 (Step.deliverStart ex1 0 1 (by decide) (by decide) (by decide))
  have h3 : Reach ex3 :=
    Reach.step h2 (Step.process ex2 (Msg.start 0 1) (by decide) (by decide))
  have h4 : Reach ex4 :=
    Reach.step h3 (Step.taskFinish ex3 exT1 false (by decide) (by decide) (by decide))
  have h5 : Reach ex5 := Reach.step h4 (Step.closeCall ex4 (by decide))
  have h6 : Reach ex6 :=
    Reach.step h5 (Step.deliverStop ex5 (by decide) (by decide) (by decide))
  have h7 : Reach ex7 :=
    Reach.step h6 (Step.process ex6 Msg.stop (by decide) (by decide))
  have h8 : Reach ex8 :=
    Reach.step h7 (Step.deliverFin ex7 exT2 false (by decide) (by decide) (by decide) (by decide))
  have h9 : Reach ex9 :=
    Reach.step h8 (Step.wgDone ex8 exT3 (by decide) (by decide) (by decide))
  have h10 : Reach ex10 :=
    Reach.step h9 (Step.closeFinish ex9 (by decide) (by decide) (by decide))
  exact Reach.step h10
    (Step.process ex10 (Msg.finished 0 1 false) (by decide) (by decide))

/-- The post-Close panicking Start is reachable as well. -/
theorem reach_ex12 : Reach ex12 :=
  Reach.step reach_ex11 (Step.startCall ex11 exR2 (by decide))

theorem postCloseW_wr (tok : Nat) (id : Int) (t : List Event) :
    postCloseW (Event.wroteRunning tok id :: t) = postCloseW t := by
  simp [postCloseW, dwrites, List.takeWhile_cons, isFinalWrite]

theorem postCloseW_final (tok : Nat) (id st : Int) (t : List Event) :
    postCloseW (Event.wroteFinal tok id st :: t) = postCloseW t + 1 := by
  simp [postCloseW, dwrites, List.takeWhile_cons, isFinalWrite]

theorem postCloseW_ret (t : List Event) : postCloseW (Event.closeRet :: t) = 0 := by
  simp [postCloseW, dwrites, List.takeWhile_cons]

theorem busyFin_le_one (s : Sys) : busyFin s ≤ 1 := by
  unfold busyFin
  split <;> simp

/-- Splitting lemma for traces that grow by one event: the ordering
property is preserved if the new event, when it is a final write, has a
matching Running write in the old trace. -/
theorem finalAfterRun_cons (e : Event) (t : List Event)
    (ht : ∀ tok id st pre post, t = pre ++ Event.wroteFinal tok id st :: post →
      Event.wroteRunning tok id ∈ post)
    (he : ∀ tok id st, e = Event.wroteFinal tok id st → Event.wroteRunning tok id ∈ t) :
    ∀ tok id st pre post, e :: t = pre ++ Event.wroteFinal tok id st :: post →
      Event.wroteRunning tok id ∈ post := by
  intro tok id st pre post hsplit
  cases pre with
  | nil =>
    simp only [List.nil_append, List.cons.injEq] at hsplit
    rcases hsplit with ⟨h1, h2⟩
    subst h2
    exact he tok id st h1
  | cons p pre2 =>
    simp only [List.cons_append, List.cons.injEq] at hsplit
    rcases hsplit with ⟨h1, h2⟩
    exact ht tok id st pre2 post h2

theorem inv_init (db0 : DBState) : SysInv (initSys db0) := by
  refine ⟨rfl, ?_, ?_, ?_, ?_, ?_, ?_, ?_, ?_, ?_, ?_⟩ <;>
    simp [initSys, busyFin, postCloseW, dwrites]

theorem inv_doJobCall (s : Sys) (id : Int) (h : SysInv s) : SysInv (doJobCall s id) :=
  ⟨h.wgLen, h.senderW, h.busyStartW, h.taskW, h.busyFinW, h.finalAfterRun, h.retDone,
    h.openIffNotDone, h.closeOnce, h.doneQuiet, h.postBound⟩

theorem inv_doCloseCall (s : Sys) (h : SysInv s) : SysInv (doCloseCall s) := by
  by_cases ho : s.onceDone = true
  · have hred : doCloseCall s = s := by simp [doCloseCall, ho]
    rw [hred]; exact h
  · have hof : s.onceDone = false := by
      revert ho; cases s.onceDone <;> simp
    have hidle : s.closeState = ClosePhase.idle := by
      by_contra hne
      rw [h.closeOnce hne] at hof
      cases hof
    have hred : doCloseCall s =
        { s with onceDone := true, closeState := ClosePhase.sendingStop } := by
      simp [doCloseCall, hof]
    rw [hred]
    refine ⟨h.wgLen, h.senderW, h.busyStartW, h.taskW, h.busyFinW, h.finalAfterRun,
      ?_, ?_, ?_, ?_, ?_⟩
    · intro hm
      have hd := h.retDone hm
      rw [hidle] at hd
      cases hd
    · constructor
      · intro _; simp
      · intro _; exact h.openIffNotDone.mpr (by rw [hidle]; simp)
    · intro _; rfl
    · intro hd; simp at hd
    · intro hd; simp at hd

theorem inv_doDeliverStop (s : Sys) (h : SysInv s)
    (hc : s.closeState = ClosePhase.sendingStop) (hd : s.disp = Disp.idle) :
    SysInv (doDeliverStop s) := by
  refine ⟨h.wgLen, h.senderW, ?_, h.taskW, ?_, h.finalAfterRun, ?_, ?_, ?_, ?_, ?_⟩
  · intro tok id hb
    simp only [doDeliverStop] at hb
    cases hb
  · intro tok id err hb
    simp only [doDeliverStop] at hb
    cases hb
  · intro hm
    have hdone := h.retDone hm
    rw [hc] at hdone
    cases hdone
  · constructor
    · intro _; simp [doDeliverStop]
    · intro _
      show s.queueOpen = true
      exact h.openIffNotDone.mpr (by rw [hc]; simp)
  · intro _
    exact h.closeOnce (by rw [hc]; simp)
  · intro hdone
    simp only [doDeliverStop] at hdone
    cases hdone
  · intro hdone
    simp only [doDeliverStop] at hdone
    cases hdone

theorem inv_doDispExit (s : Sys) (h : SysInv s) (hd : s.disp = Disp.idle) :
    SysInv (doDispExit s) := by
  refine ⟨h.wgLen, h.senderW, ?_, h.taskW, ?_, h.finalAfterRun, h.retDone,
    h.openIffNotDone, h.closeOnce, h.doneQuiet, ?_⟩
  · intro tok id hb
    simp only [doDispExit] at hb
    cases hb
  · intro tok id err hb
    simp only [doDispExit] at hb
    cases hb
  · intro hdone
    have hb := h.postBound hdone
    have h0 : busyFin s = 0 := by simp [busyFin, hd]
    have h1 : busyFin (doDispExit s) = 0 := by simp [busyFin, doDispExit]
    simp only [doDispExit] at h1 ⊢
    omega

theorem inv_doWgDone (s : Sys) (t : JobTask) (h : SysInv s) (hm : t ∈ s.tasks) :
    SysInv (doWgDone s t) := by
  refine ⟨?_, h.senderW, h.busyStartW, ?_, h.busyFinW, h.finalAfterRun, h.retDone,
    h.openIffNotDone, h.closeOnce, ?_, h.postBound⟩
  · show s.wg - 1 = (s.tasks.erase t).length
    rw [List.length_erase_of_mem hm, h.wgLen]
  · intro t2 ht2
    exact h.taskW t2 (List.mem_of_mem_erase ht2)
  · intro hd hp
    rcases h.doneQuiet hd hp with ⟨h1, h2⟩
    exact ⟨h1, fun t2 ht2 => h2 t2 (List.mem_of_mem_erase ht2)⟩

theorem inv_doStart (s : Sys) (r : Runner) (h : SysInv s) : SysInv (doStart s r) := by
  rcases hs : (Start s.db r).sent with _ | id
  · have hred : doStart s r = { s with db := (Start s.db r).db } := by
      simp [doStart, hs]
    rw [hred]
    exact ⟨h.wgLen, h.senderW, h.busyStartW, h.taskW, h.busyFinW, h.finalAfterRun,
      h.retDone, h.openIffNotDone, h.closeOnce, h.doneQuiet, h.postBound⟩
  · by_cases hq : s.queueOpen = true
    · have hred : doStart s r =
          { s with
            db := (Start s.db r).db
            startSenders := s.startSenders ++ [(s.nextTok, id)]
            trace := Event.wroteRunning s.nextTok id :: s.trace
            nextTok := s.nextTok + 1 } := by
        simp [doStart, hs, hq]
      rw [hred]
      refine ⟨h.wgLen, ?_, ?_, ?_, ?_, ?_, ?_, h.openIffNotDone, h.closeOnce, ?_, ?_⟩
      · intro tok i hm
        rcases List.mem_append.mp hm with hm1 | hm2
        · exact List.mem_cons_of_mem _ (h.senderW tok i hm1)
        · simp only [List.mem_singleton, Prod.mk.injEq] at hm2
          rcases hm2 with ⟨h1, h2⟩
          subst h1; subst h2
          exact List.mem_cons_self _ _
      · intro tok i hb
        exact List.mem_cons_of_mem _ (h.busyStartW tok i hb)
      · intro t ht
        exact List.mem_cons_of_mem _ (h.taskW t ht)
      · intro tok i err hb
        exact List.mem_cons_of_mem _ (h.busyFinW tok i err hb)
      · exact finalAfterRun_cons _ _ h.finalAfterRun (by intro tok i st heq; cases heq)
      · intro hm
        rcases List.mem_cons.mp hm with h1 | h2
        · cases h1
        · exact h.retDone h2
      · intro hd
        exact absurd hd (h.openIffNotDone.mp hq)
      · intro hd
        exact absurd hd (h.openIffNotDone.mp hq)
    · have hqf : s.queueOpen = false := by
        revert hq; cases s.queueOpen <;> simp
      have hred : doStart s r =
          { s with
            db := (Start s.db r).db
            trace := Event.wroteRunning s.nextTok id :: s.trace
            nextTok := s.nextTok + 1
            panicked := true } := by
        simp [doStart, hs, hqf]
      rw [hred]
      refine ⟨h.wgLen, ?_, ?_, ?_, ?_, ?_, ?_, h.openIffNotDone, h.closeOnce, ?_, ?_⟩
      · intro tok i hm
        exact List.mem_cons_of_mem _ (h.senderW tok i hm)
      · intro tok i hb
        exact List.mem_cons_of_mem _ (h.busyStartW tok i hb)
      · intro t ht
        exact List.mem_cons_of_mem _ (h.taskW t ht)
      · intro tok i err hb
        exact List.mem_cons_of_mem _ (h.busyFinW tok i err hb)
      · exact finalAfterRun_cons _ _ h.finalAfterRun (by intro tok i st heq; cases heq)
      · intro hm
        rcases List.mem_cons.mp hm with h1 | h2
        · cases h1
        · exact h.retDone h2
      · intro _ hp
        cases hp
      · intro hd
        show postCloseW (Event.wroteRunning s.nextTok id :: s.trace) + _ ≤ 1
        rw [postCloseW_wr]
        exact h.postBound hd

theorem inv_doDeliverStart (s : Sys) (tok : Nat) (id : Int) (h : SysInv s)
    (hd : s.disp = Disp.idle) (hm : (tok, id) ∈ s.startSenders) :
    SysInv (doDeliverStart s tok id) := by
  refine ⟨h.wgLen, ?_, ?_, h.taskW, ?_, h.finalAfterRun, h.retDone, h.openIffNotDone,
    h.closeOnce, ?_, ?_⟩
  · intro tok2 id2 hm2
    exact h.senderW tok2 id2 (List.mem_of_mem_erase hm2)
  · intro tok2 id2 hb
    simp only [doDeliverStart, Disp.busy.injEq, Msg.start.injEq] at hb
    rcases hb with ⟨h1, h2⟩
    subst h1; subst h2
    exact h.senderW tok id hm
  · intro tok2 id2 err hb
    simp only [doDeliverStart] at hb
    cases hb
  · intro hdone hp
    rcases h.doneQuiet hdone hp with ⟨h1, _⟩
    rw [h1] at hm
    cases hm
  · intro hdone
    have hb := h.postBound hdone
    have h0 : busyFin s = 0 := by simp [busyFin, hd]
    have h1 : busyFin (doDeliverStart s tok id) = 0 := by simp [busyFin, doDeliverStart]
    simp only [doDeliverStart] at h1 ⊢
    omega

theorem inv_doDeliverFin (s : Sys) (t : JobTask) (err : Bool) (h : SysInv s)
    (hp : s.panicked = false) (hd : s.disp = Disp.idle) (hm : t ∈ s.tasks)
    (hph : t.phase = TaskPhase.sending err) : SysInv (doDeliverFin s t err) := by
  have hlen : (s.tasks.erase t ++
      [{ tok := t.tok, id := t.id, phase := TaskPhase.exiting : JobTask }]).length =
      s.tasks.length := by
    rw [List.length_append, List.length_erase_of_mem hm]
    have := List.length_pos_of_mem hm
    simp
    omega
  refine ⟨?_, h.senderW, ?_, ?_, ?_, h.finalAfterRun, h.retDone, h.openIffNotDone,
    h.closeOnce, ?_, ?_⟩
  · show s.wg = ((doDeliverFin s t err).tasks).length
    simp only [doDeliverFin]
    rw [hlen]
    exact h.wgLen
  · intro tok2 id2 hb
    simp only [doDeliverFin] at hb
    cases hb
  · intro t2 ht2
    rcases List.mem_append.mp ht2 with h1 | h2
    · exact h.taskW t2 (List.mem_of_mem_erase h1)
    · simp only [List.mem_singleton] at h2
      subst h2
      exact h.taskW t hm
  · intro tok2 id2 err2 hb
    simp only [doDeliverFin, Disp.busy.injEq, Msg.finished.injEq] at hb
    rcases hb with ⟨h1, h2, _⟩
    subst h1; subst h2
    exact h.taskW t hm
  · intro hdone _
    rcases h.doneQuiet hdone hp with ⟨_, h2⟩
    have := h2 t hm
    rw [JobTask.isSending, hph] at this
    cases this
  · intro hdone
    rcases h.doneQuiet hdone hp with ⟨_, h2⟩
    have := h2 t hm
    rw [JobTask.isSending, hph] at this
    cases this

theorem inv_doProcess (s : Sys) (m : Msg) (h : SysInv s) (hd : s.disp = Disp.busy m) :
    SysInv (doProcess s m) := by
  cases m with
  | stop =>
    refine ⟨h.wgLen, h.senderW, ?_, h.taskW, ?_, h.finalAfterRun, h.retDone,
      h.openIffNotDone, h.closeOnce, h.doneQuiet, ?_⟩
    · intro tok id hb
      simp only [doProcess] at hb
      cases hb
    · intro tok id err hb
      simp only [doProcess] at hb
      cases hb
    · intro hdone
      have hb := h.postBound hdone
      have h0 : busyFin s = 0 := by simp [busyFin, hd]
      have h1 : busyFin (doProcess s Msg.stop) = 0 := by simp [busyFin, doProcess]
      simp only [doProcess] at h1 ⊢
      omega
  | start tok id =>
    refine ⟨?_, h.senderW, ?_, ?_, ?_, h.finalAfterRun, h.retDone, h.openIffNotDone,
      h.closeOnce, ?_, ?_⟩
    · show s.wg + 1 = ((doProcess s (Msg.start tok id)).tasks).length
      simp [doProcess, h.wgLen]
    · intro tok2 id2 hb
      simp only [doProcess] at hb
      cases hb
    · intro t2 ht2
      simp only [doProcess] at ht2
      rcases List.mem_append.mp ht2 with h1 | h2
      · exact h.taskW t2 h1
      · simp only [List.mem_singleton] at h2
        subst h2
        exact h.busyStartW tok id hd
    · intro tok2 id2 err hb
      simp only [doProcess] at hb
      cases hb
    · intro hdone hp
      rcases h.doneQuiet hdone hp with ⟨h1, h2⟩
      refine ⟨h1, ?_⟩
      intro t2 ht2
      simp only [doProcess] at ht2
      rcases List.mem_append.mp ht2 with ha | hb2
      · exact h2 t2 ha
      · simp only [List.mem_singleton] at hb2
        subst hb2
        rfl
    · intro hdone
      have hb := h.postBound hdone
      have h0 : busyFin s = 0 := by simp [busyFin, hd]
      have h1 : busyFin (doProcess s (Msg.start tok id)) = 0 := by
        simp [busyFin, doProcess]
      simp only [doProcess] at h1 ⊢
      omega
  | finished tok id err =>
    have hbf : busyFin s = 1 := by simp [busyFin, hd]
    by_cases hf : s.db.faults.head?.getD false = true
    · have hred : doProcess s (Msg.finished tok id err) =
          { s with
            cancelFuncs := s.cancelFuncs.erase id
            db := (SetJobStatus s.db id (if err then StatusIDFailed else StatusIDDone)).2
            disp := Disp.idle } := by
        simp [doProcess, SetJobStatus, popFault, hf]
      rw [hred]
      refine ⟨h.wgLen, h.senderW, ?_, h.taskW, ?_, h.finalAfterRun, h.retDone,
        h.openIffNotDone, h.closeOnce, h.doneQuiet, ?_⟩
      · intro tok2 id2 hb
        cases hb
      · intro tok2 id2 err2 hb
        cases hb
      · intro hdone
        have hb := h.postBound hdone
        rw [hbf] at hb
        have h1 : busyFin
            { s with
              cancelFuncs := s.cancelFuncs.erase id
              db := (SetJobStatus s.db id (if err then StatusIDFailed else StatusIDDone)).2
              disp := Disp.idle } = 0 := by
          simp [busyFin]
        rw [h1]
        show postCloseW s.trace + 0 ≤ 1
        omega
    · have hff : s.db.faults.head?.getD false = false := by
        revert hf; cases s.db.faults.head?.getD false <;> simp
      have hred : doProcess s (Msg.finished tok id err) =
          { s with
            cancelFuncs := s.cancelFuncs.erase id
            db := (SetJobStatus s.db id (if err then StatusIDFailed else StatusIDDone)).2
            trace := Event.wroteFinal tok id (if err then StatusIDFailed else StatusIDDone)
              :: s.trace
            disp := Disp.idle } := by
        simp [doProcess, SetJobStatus, popFault, hff]
      rw [hred]
      refine ⟨h.wgLen, ?_, ?_, ?_, ?_, ?_, ?_, h.openIffNotDone, h.closeOnce, ?_, ?_⟩
      · intro tok2 id2 hm
        exact List.mem_cons_of_mem _ (h.senderW tok2 id2 hm)
      · intro tok2 id2 hb
        cases hb
      · intro t2 ht2
        exact List.mem_cons_of_mem _ (h.taskW t2 ht2)
      · intro tok2 id2 err2 hb
        cases hb
      · refine finalAfterRun_cons _ _ h.finalAfterRun ?_
        intro tok2 id2 st2 heq
        injection heq with a b c
        subst a; subst b
        exact h.busyFinW tok id err hd
      · intro hm
        rcases List.mem_cons.mp hm with h1 | h2
        · cases h1
        · exact h.retDone h2
      · intro hdone hp
        exact h.doneQuiet hdone hp
      · intro hdone
        have hb := h.postBound hdone
        rw [hbf] at hb
        show postCloseW (Event.wroteFinal tok id _ :: s.trace) + _ ≤ 1
        rw [postCloseW_final]
        have h1 : busyFin
            { s with
              cancelFuncs := s.cancelFuncs.erase id
              db := (SetJobStatus s.db id (if err then StatusIDFailed else StatusIDDone)).2
              trace := Event.wroteFinal tok id (if err then StatusIDFailed else StatusIDDone)
                :: s.trace
              disp := Disp.idle } = 0 := by
          simp [busyFin]
        rw [h1]
        omega

theorem inv_doTaskFinish (s : Sys) (t : JobTask) (err : Bool) (h : SysInv s)
    (hm : t ∈ s.tasks) : SysInv (doTaskFinish s t err) := by
  by_cases hq : s.queueOpen = true
  · have hred : doTaskFinish s t err =
        { s with tasks := s.tasks.erase t ++
            [{ tok := t.tok, id := t.id, phase := TaskPhase.sending err }] } := by
      simp [doTaskFinish, hq]
    rw [hred]
    have hlen : (s.tasks.erase t ++
        [{ tok := t.tok, id := t.id, phase := TaskPhase.sending err : JobTask }]).length =
        s.tasks.length := by
      rw [List.length_append, List.length_erase_of_mem hm]
      have := List.length_pos_of_mem hm
      simp
      omega
    refine ⟨?_, h.senderW, h.busyStartW, ?_, h.busyFinW, h.finalAfterRun, h.retDone,
      h.openIffNotDone, h.closeOnce, ?_, h.postBound⟩
    · show s.wg = _
      rw [hlen]
      exact h.wgLen
    · intro t2 ht2
      rcases List.mem_append.mp ht2 with h1 | h2
      · exact h.taskW t2 (List.mem_of_mem_erase h1)
      · simp only [List.mem_singleton] at h2
        subst h2
        exact h.taskW t hm
    · intro hdone _
      exact absurd hdone (h.openIffNotDone.mp hq)
  · have hqf : s.queueOpen = false := by
      revert hq; cases s.queueOpen <;> simp
    have hred : doTaskFinish s t err = { s with panicked := true } := by
      simp [doTaskFinish, hqf]
    rw [hred]
    refine ⟨h.wgLen, h.senderW, h.busyStartW, h.taskW, h.busyFinW, h.finalAfterRun,
      h.retDone, h.openIffNotDone, h.closeOnce, ?_, h.postBound⟩
    intro _ hp
    cases hp

theorem inv_doCloseFinish (s : Sys) (h : SysInv s) (hc : s.closeState = ClosePhase.waiting) :
    SysInv (doCloseFinish s) := by
  refine ⟨h.wgLen, ?_, ?_, ?_, ?_, ?_, ?_, ?_, ?_, ?_, ?_⟩
  · intro tok id hm
    exact List.mem_cons_of_mem _ (h.senderW tok id hm)
  · intro tok id hb
    exact List.mem_cons_of_mem _ (h.busyStartW tok id hb)
  · intro t ht
    exact List.mem_cons_of_mem _ (h.taskW t ht)
  · intro tok id err hb
    exact List.mem_cons_of_mem _ (h.busyFinW tok id err hb)
  · exact finalAfterRun_cons _ _ h.finalAfterRun (by intro tok id st heq; cases heq)
  · intro _
    rfl
  · constructor
    · intro hfalse
      cases hfalse
    · intro habs
      exact absurd rfl habs
  · intro _
    exact h.closeOnce (by rw [hc]; simp)
  · intro _ hp
    have hp2 : (s.panicked || (!s.startSenders.isEmpty ||
        s.tasks.any fun t => match t.phase with
          | TaskPhase.sending _ => true
          | _ => false)) = false := by
      simpa [doCloseFinish, Bool.or_assoc] using hp
    rw [Bool.or_eq_false_iff] at hp2
    rcases hp2 with ⟨_, hp3⟩
    rw [Bool.or_eq_false_iff] at hp3
    rcases hp3 with ⟨hps, hpt⟩
    constructor
    · show s.startSenders = []
      revert hps
      cases s.startSenders <;> simp
    · intro t ht
      show t.isSending = false
      rw [List.any_eq_false] at hpt
      have := hpt t ht
      revert this
      rw [JobTask.isSending]
      cases t.phase <;> simp
  · intro _
    show postCloseW (Event.closeRet :: s.trace) + busyFin (doCloseFinish s) ≤ 1
    rw [postCloseW_ret]
    have := busyFin_le_one (doCloseFinish s)
    omega

theorem inv_step {s t : Sys} {l : Label} (h : SysInv s) (hs : Step s l t) : SysInv t := by
  cases hs with
  | startCall r hp => exact inv_doStart _ r h
  | jobCall id hp => exact inv_doJobCall _ id h
  | closeCall hp => exact inv_doCloseCall _ h
  | deliverStart tok id hp hd hm => exact inv_doDeliverStart _ tok id h hd hm
  | deliverFin t2 err hp hd hm hph => exact inv_doDeliverFin _ t2 err h hp hd hm hph
  | deliverStop hp hd hc => exact inv_doDeliverStop _ h hc hd
  | process m hp hd => exact inv_doProcess _ m h hd
  | taskFinish t2 err hp hm hph => exact inv_doTaskFinish _ t2 err h hm
  | wgDone t2 hp hm hph => exact inv_doWgDone _ t2 h hm
  | closeFinish hp hc hw => exact inv_doCloseFinish _ h hc
  | dispExit hp hd hq => exact inv_doDispExit _ h hd

theorem inv_reach {s : Sys} (h : Reach s) : SysInv s := by
  induction h with
  | init db0 => exact inv_init db0
  | step hr hs ih => exact inv_step ih hs

theorem getD_false_of_all (l : List Bool) (hf : ∀ b ∈ l, b = false) :
    l.head?.getD false = false := by
  cases l with
  | nil => rfl
  | cons b bs => exact hf b (List.mem_cons_self b bs)

theorem all_false_tail (l : List Bool) (hf : ∀ b ∈ l, b = false) :
    ∀ b ∈ l.tail, b = false := by
  cases l with
  | nil => intro b hb; cases hb
  | cons c cs => intro b hb; exact hf b (List.mem_cons_of_mem c hb)

theorem tail_headD_getD (l : List Bool) : l[1]?.getD false = l.tail.head?.getD false := by
  cases l with
  | nil => rfl
  | cons a t => cases t <;> simp

theorem select_of_running (rows : List Row) (bid : Int) (row : Row)
    (hrow : findRow rows bid = some row) (hst : row.statusid = StatusIDRunning) :
    selectJobStatus rows bid = some
      { JobID := row.id, BookID := row.id, StatusID := StatusIDRunning,
        StatusName := StatusRunning, JobName := row.text, Timestamp := row.timestamp } := by
  simp only [selectJobStatus, hrow]
  rw [hst]
  rfl

/-- Claim C1, counterexample.  The claim as stated fails on the code: in
the store cexDB1, book 1 has a job row with status Running, yet Start
returns id 0 — not the existing id 1 — because the join branch re-reads
the row via Job and that second read fails, so Job falls back to the
synthetic status whose JobID is 0.  The error is still nil and no start
message is sent. -/
theorem start_join_fault_cex :
    findRow cexDB1.rows exR1.BookID =
      some { id := 1, statusid := StatusIDRunning, text := "p", timestamp := 0 } ∧
    (Start cexDB1 exR1).sent = none ∧
    (Start cexDB1 exR1).erred = false ∧
    ¬ (Start cexDB1 exR1).id = 1 := by
  decide

/-- Claim C1 (amended): for every Start call whose Runner's book id has
an existing job row with status Running, if the call's store reads
succeed, Start creates no new execution (it sends no start message),
and returns the existing job's id unchanged together with a nil
error. -/
theorem start_join_amended (db : DBState) (r : Runner) (row : Row)
    (hrow : findRow db.rows r.BookID = some row)
    (hst : row.statusid = StatusIDRunning)
    (hf : ∀ b ∈ db.faults, b = false) :
    (Start db r).sent = none ∧ (Start db r).erred = false ∧ (Start db r).id = row.id := by
  have h1 : db.faults.head?.getD false = false := getD_false_of_all db.faults hf
  have h2 : db.faults.tail.head?.getD false = false :=
    getD_false_of_all _ (all_false_tail db.faults hf)
  have h2b : db.faults[1]?.getD false = false := by
    rw [tail_headD_getD]
    exact h2
  have hsel := select_of_running db.rows r.BookID row hrow hst
  refine ⟨?_, ?_, ?_⟩ <;>
    simp [Start, FindJobByID, popFault, Job, h1, h2, h2b, hsel]

/-- Witness for start_join_amended at the concrete store wDB1: Start
returns (7, nil) with no send. -/
theorem start_join_amended_witness :
    (Start wDB1 { BookID := 7, Name := "q" }).sent = none ∧
    (Start wDB1 { BookID := 7, Name := "q" }).erred = false ∧
    (Start wDB1 { BookID := 7, Name := "q" }).id = wRow1.id :=
  start_join_amended wDB1 { BookID := 7, Name := "q" } wRow1
    (by decide) (by decide) (by decide)

/-- Claim C10: in Start's join branch (an existing row with status
Running), Start re-reads the store via Job; when that second read
fails, Start returns id 0 with a nil error (and no start message),
instead of the id found by the first lookup. -/
theorem start_join_reread (rows : List Row) (now : Int) (rest : List Bool) (r : Runner)
    (row : Row) (hrow : findRow rows r.BookID = some row)
    (hst : row.statusid = StatusIDRunning) :
    Start { rows := rows, now := now, faults := false :: true :: rest } r =
      { id := 0, erred := false, sent := none,
        db := { rows := rows, now := now, faults := rest } } := by
  have hsel := select_of_running rows r.BookID row hrow hst
  simp [Start, FindJobByID, popFault, Job, hsel, failedJobStatus]

/-- Witness for start_join_reread: book 1 running, second read faulted,
result is id 0 with nil error. -/
theorem start_join_reread_witness :
    Start cexDB1 exR1 =
      { id := 0, erred := false, sent := none,
        db := { rows := cexDB1.rows, now := 0, faults := [] } } :=
  start_join_reread cexDB1.rows 0 [] exR1
    { id := 1, statusid := 1, text := "p", timestamp := 0 } (by decide) (by decide)

/-- Claim C4: if the Job Store read fails or no row with the id exists,
jobs.Job returns the synthetic status — StatusID Failed, StatusName
"failed", every other field a Go zero value — and never propagates the
error; in particular an id that was never created yields StatusID
Failed. -/
theorem job_failsafe (db : DBState) (id : Int)
    (h : db.faults.head?.getD false = true ∨ findRow db.rows id = none) :
    (Job db id).1 = failedJobStatus ∧
    (Job db id).1.StatusID = StatusIDFailed ∧
    (Job db id).1.StatusName = StatusFailed := by
  have heq : (Job db id).1 = failedJobStatus := by
    rcases h with h1 | h1
    · simp [Job, FindJobByID, popFault, h1]
    · by_cases hfault : db.faults.head?.getD false = true
      · simp [Job, FindJobByID, popFault, hfault]
      · have hff : db.faults.head?.getD false = false := by
          revert hfault; cases db.faults.head?.getD false <;> simp
        simp [Job, FindJobByID, popFault, hff, selectJobStatus, h1]
  refine ⟨heq, ?_, ?_⟩ <;> rw [heq] <;> rfl

/-- Witness for job_failsafe: polling an id that was never created on a
healthy empty store yields the synthetic Failed status. -/
theorem job_failsafe_witness :
    (Job { rows := [], now := 0, faults := [] } 999).1 = failedJobStatus ∧
    (Job { rows := [], now := 0, faults := [] } 999).1.StatusID = StatusIDFailed ∧
    (Job { rows := [], now := 0, faults := [] } 999).1.StatusName = StatusFailed :=
  job_failsafe { rows := [], now := 0, faults := [] } 999 (Or.inr (by decide))

/-- Claim C6: if any Job Store statement Start performs fails — the row
lookup, or the in-place status update respectively row creation that
follows a successful lookup — then Start returns a non-nil error and
sends no message, and a Start call in any system state with that
database leaves the dispatcher's in-memory state (cancel functions,
WaitGroup counter, pending senders, tasks) and the ghost trace
unchanged. -/
theorem start_store_failure (db : DBState) (r : Runner)
    (h : db.faults.head?.getD false = true ∨
      (db.faults.head?.getD false = false ∧ db.faults.tail.head?.getD false = true ∧
        ∀ j, selectJobStatus db.rows r.BookID = some j → ¬ j.StatusID = StatusIDRunning)) :
    (Start db r).erred = true ∧ (Start db r).sent = none ∧
    ∀ s : Sys, s.db = db → (doStart s r).cancelFuncs = s.cancelFuncs ∧
      (doStart s r).wg = s.wg ∧ (doStart s r).startSenders = s.startSenders ∧
      (doStart s r).tasks = s.tasks ∧ (doStart s r).trace = s.trace := by
  have hmain : (Start db r).erred = true ∧ (Start db r).sent = none := by
    rcases h with h1 | ⟨h1, h2, h3⟩
    · constructor <;> simp [Start, FindJobByID, popFault, h1]
    · have h2b : db.faults[1]?.getD false = true := by
        rw [tail_headD_getD]
        exact h2
      rcases hsel : selectJobStatus db.rows r.BookID with _ | j
      · constructor <;>
          simp [Start, FindJobByID, popFault, NewJob, h1, h2, h2b, hsel]
      · have hns : ¬ j.StatusID = StatusIDRunning := h3 j hsel
        constructor <;>
          simp [Start, FindJobByID, popFault, SetJobStatusWithText, h1, h2, h2b, hsel, hns]
  refine ⟨hmain.1, hmain.2, ?_⟩
  intro s hs
  subst hs
  have hred : doStart s r = { s with db := (Start s.db r).db } := by
    simp [doStart, hmain.2]
  rw [hred]
  exact ⟨rfl, rfl, rfl, rfl, rfl⟩

/-- Witness for start_store_failure: the lookup statement faults, Start
errors without sending, and the orchestrator state is untouched. -/
theorem start_store_failure_witness :
    (Start { rows := [], now := 0, faults := [true] } exR1).erred = true ∧
    (Start { rows := [], now := 0, faults := [true] } exR1).sent = none ∧
    ∀ s : Sys, s.db = { rows := [], now := 0, faults := [true] } →
      (doStart s exR1).cancelFuncs = s.cancelFuncs ∧
      (doStart s exR1).wg = s.wg ∧ (doStart s exR1).startSenders = s.startSenders ∧
      (doStart s exR1).tasks = s.tasks ∧ (doStart s exR1).trace = s.trace :=
  start_store_failure { rows := [], now := 0, faults := [true] } exR1 (Or.inl (by decide))

theorem updateRowsText_map_id (rows : List Row) (jid st : Int) (txt : String) (nw : Int) :
    (updateRowsText rows jid st txt nw).map Row.id = rows.map Row.id := by
  rw [updateRowsText, List.map_map]
  apply List.map_congr_left
  intro row _
  by_cases h : row.id = jid <;> simp [h]

theorem start_rows_cases (db : DBState) (r : Runner) :
    (Start db r).db.rows = db.rows ∨
    (∃ job, selectJobStatus db.rows r.BookID = some job ∧
      (Start db r).db.rows = updateRowsText db.rows job.JobID StatusIDRunning r.Name db.now) ∨
    (findRow db.rows r.BookID = none ∧
      (Start db r).db.rows = db.rows ++
        [{ id := r.BookID, statusid := StatusIDRunning, text := r.Name,
           timestamp := db.now }]) := by
  by_cases hf : db.faults.head?.getD false = true
  · left
    simp [Start, FindJobByID, popFault, hf]
  · have hff : db.faults.head?.getD false = false := by
      revert hf; cases db.faults.head?.getD false <;> simp
    by_cases hf2 : db.faults[1]?.getD false = true
    · rcases hsel : selectJobStatus db.rows r.BookID with _ | job
      · left
        simp [Start, FindJobByID, popFault, NewJob, hff, hsel, hf2]
      · by_cases hrun : job.StatusID = StatusIDRunning
        · left
          simp [Start, FindJobByID, popFault, Job, hff, hsel, hrun, hf2]
        · left
          simp [Start, FindJobByID, popFault, SetJobStatusWithText, hff, hsel, hrun, hf2]
    · have hff2 : db.faults[1]?.getD false = false := by
        revert hf2; cases db.faults[1]?.getD false <;> simp
      rcases hsel : selectJobStatus db.rows r.BookID with _ | job
      · rcases hfr : findRow db.rows r.BookID with _ | row0
        · right; right
          refine ⟨rfl, ?_⟩
          simp [Start, FindJobByID, popFault, NewJob, hff, hsel, hff2, hfr]
        · left
          simp [Start, FindJobByID, popFault, NewJob, hff, hsel, hff2, hfr]
      · by_cases hrun : job.StatusID = StatusIDRunning
        · left
          simp [Start, FindJobByID, popFault, Job, hff, hsel, hrun, hff2]
        · right; left
          refine ⟨job, rfl, ?_⟩
          simp [Start, FindJobByID, popFault, SetJobStatusWithText, hff, hsel, hrun, hff2]

/-- Claim C7: Start never creates a second row for a resource.  If the
table maps each id to at most one row, it still does after any Start
call; when a row for the runner's book id exists, the id multiset of
the table is unchanged (the row is overwritten in place); a row is
appended only when the lookup finds none, and the created row's id is
the book id. -/
theorem start_single_row (db : DBState) (r : Runner)
    (hnd : (db.rows.map Row.id).Nodup) :
    ((Start db r).db.rows.map Row.id).Nodup ∧
    ((findRow db.rows r.BookID).isSome = true →
      (Start db r).db.rows.map Row.id = db.rows.map Row.id) ∧
    (findRow db.rows r.BookID = none →
      (Start db r).db.rows.map Row.id = db.rows.map Row.id ∨
      (Start db r).db.rows.map Row.id = db.rows.map Row.id ++ [r.BookID]) := by
  rcases start_rows_cases db r with h1 | ⟨job, hsel, h2⟩ | ⟨hfr, h3⟩
  · rw [h1]
    exact ⟨hnd, fun _ => rfl, fun _ => Or.inl rfl⟩
  · rw [h2, updateRowsText_map_id]
    exact ⟨hnd, fun _ => rfl, fun _ => Or.inl rfl⟩
  · have hnotin : r.BookID ∉ db.rows.map Row.id := by
      intro hmem
      rcases List.mem_map.mp hmem with ⟨row, hrowm, hid⟩
      have hnp := List.find?_eq_none.mp hfr row hrowm
      apply hnp
      simp [hid]
    rw [h3, List.map_append]
    refine ⟨?_, ?_, fun _ => Or.inr rfl⟩
    · simp [List.nodup_append, hnd, hnotin]
    · intro hs
      rw [hfr] at hs
      cases hs

/-- Witness for start_single_row on the empty, fault-free store: the
first Start for book 1 appends exactly one row with id 1. -/
theorem start_single_row_witness :
    ((Start exDB0 exR1).db.rows.map Row.id).Nodup ∧
    ((findRow exDB0.rows exR1.BookID).isSome = true →
      (Start exDB0 exR1).db.rows.map Row.id = exDB0.rows.map Row.id) ∧
    (findRow exDB0.rows exR1.BookID = none →
      (Start exDB0 exR1).db.rows.map Row.id = exDB0.rows.map Row.id ∨
      (Start exDB0 exR1).db.rows.map Row.id = exDB0.rows.map Row.id ++ [exR1.BookID]) :=
  start_single_row exDB0 exR1 (by decide)

/-- Claim C2: when the dispatcher loop processes a finished(id, err)
message, the cancel function recorded under id is removed; when the
persistence statement does not fault, the row of job id is updated to
Failed (err non-nil) or Done (err nil); when it faults, the table is
untouched (the failure is only logged); and in both cases the loop goes
back to receiving (it is not aborted and does not panic). -/
theorem dispatcher_finished_effects (s : Sys) (tok : Nat) (id : Int) (err : Bool) :
    (doProcess s (Msg.finished tok id err)).cancelFuncs = s.cancelFuncs.erase id ∧
    (doProcess s (Msg.finished tok id err)).disp = Disp.idle ∧
    (doProcess s (Msg.finished tok id err)).panicked = s.panicked ∧
    (doProcess s (Msg.finished tok id err)).db.rows =
      (if s.db.faults.headD false then s.db.rows
       else updateRows s.db.rows id (if err then StatusIDFailed else StatusIDDone)
         s.db.now) := by
  refine ⟨rfl, rfl, rfl, ?_⟩
  by_cases hf : s.db.faults.head?.getD false = true
  · simp [doProcess, SetJobStatus, popFault, hf]
  · have hff : s.db.faults.head?.getD false = false := by
      revert hf; cases s.db.faults.head?.getD false <;> simp
    simp [doProcess, SetJobStatus, popFault, hff]

/-- Claim C3: in every reachable state, each pending start message was
preceded by a successful Running write of the same invocation, and
every persisted Done/Failed write of an invocation is preceded in the
trace by that invocation's Running write for the same job id — the
sequence of persisted orchestrator states of one invocation is Running
before Done or Failed, never a final state first. -/
theorem running_precedes_final (s : Sys) (hs : Reach s) :
    (∀ tok id, (tok, id) ∈ s.startSenders → Event.wroteRunning tok id ∈ s.trace) ∧
    (∀ tok id st pre post, s.trace = pre ++ Event.wroteFinal tok id st :: post →
      Event.wroteRunning tok id ∈ post) := by
  have h := inv_reach hs
  exact ⟨h.senderW, h.finalAfterRun⟩

/-- Witness for running_precedes_final on the concrete run ex11, whose
trace has the final Done write of invocation 0 preceded by its Running
write. -/
theorem running_precedes_final_witness :
    Reach ex11 ∧
    ex11.trace = [] ++ Event.wroteFinal 0 1 StatusIDDone ::
      [Event.closeRet, Event.wroteRunning 0 1] ∧
    Event.wroteRunning 0 1 ∈ [Event.closeRet, Event.wroteRunning 0 1] :=
  ⟨reach_ex11, by decide,
    (running_precedes_final ex11 reach_ex11).2 0 1 StatusIDDone []
      [Event.closeRet, Event.wroteRunning 0 1] (by decide)⟩

/-- Claim C5, counterexample.  The claim that no Job Store write can
originate from the orchestrator after Close returns is false: in the
reachable state ex11 the dispatcher's Done write for job 1 appears in
the trace after the closeRet marker, because the task's deferred
wg.Done runs once its finished message has merely been received, so
Close's wg.Wait can return before the dispatcher has persisted the
final status. -/
theorem close_return_write_cex :
    ¬ (∀ s : Sys, Reach s → ∀ pre post, s.trace = pre ++ Event.closeRet :: post →
        dwrites pre = 0) := by
  intro hclaim
  have h := hclaim ex11 reach_ex11 [Event.wroteFinal 0 1 StatusIDDone]
    [Event.wroteRunning 0 1] (by decide)
  exact absurd h (by decide)

/-- Claim C5 (amended): when Close returns (the closeFinish step fires),
every task has exited — the task list is empty and the WaitGroup
counter is zero — and in any reachable state whose trace contains the
closeRet marker, at most one dispatcher Job Store write occurs after
it: the processing of the single finished message the dispatcher had
already received when Close returned. -/
theorem close_return_amended (s s2 : Sys) (hs : Reach s) :
    (Step s Label.closeFinishL s2 → s.tasks = [] ∧ s.wg = 0) ∧
    (Event.closeRet ∈ s.trace → postCloseW s.trace ≤ 1) := by
  have h := inv_reach hs
  constructor
  · intro hstep
    cases hstep with
    | closeFinish hp hc hw =>
      refine ⟨?_, hw⟩
      have hlen := h.wgLen
      rw [hw] at hlen
      exact List.length_eq_zero.mp hlen.symm
  · intro hret
    have hdone := h.retDone hret
    have hb := h.postBound hdone
    omega

/-- Witness for close_return_amended on the concrete run: ex11's trace
contains closeRet and exactly one dispatcher write after it. -/
theorem close_return_amended_witness :
    Reach ex11 ∧ (Event.closeRet ∈ ex11.trace → postCloseW ex11.trace ≤ 1) ∧
    postCloseW ex11.trace = 1 :=
  ⟨reach_ex11, (close_return_amended ex11 ex11 reach_ex11).2, by decide⟩

/-- Claim C8, counterexample.  The claim that no public operation after
Close returns can send on the queue is false: from the reachable state
ex11 — Close has returned, nothing has panicked — the public Start call
for book 2 runs to its enqueue and panics on the closed queue. -/
theorem post_close_send_cex :
    Reach ex11 ∧ ex11.closeState = ClosePhase.done ∧ ex11.panicked = false ∧
    Step ex11 (Label.startL exR2) ex12 ∧ ex12.panicked = true :=
  ⟨reach_ex11, by decide, by decide, Step.startCall ex11 exR2 (by decide), by decide⟩

/-- Claim C8 (amended): after Close has returned (and nothing has
panicked), no send is pending or possible from inside the orchestrator:
there are no blocked start senders and no task is at its send; a
further Close call is a no-op by sync.Once, and a Job call touches only
the store and cannot panic.  Only a new Start call can still reach the
closed queue (and then panics, see the counterexample). -/
theorem post_close_send_amended (s : Sys) (hs : Reach s)
    (hdone : s.closeState = ClosePhase.done) (hp : s.panicked = false) :
    s.startSenders = [] ∧ (∀ t, t ∈ s.tasks → t.isSending = false) ∧
    doCloseCall s = s ∧
    (∀ id, (doJobCall s id).startSenders = s.startSenders ∧
      (doJobCall s id).panicked = false) := by
  have h := inv_reach hs
  have hq := h.doneQuiet hdone hp
  have ho : s.onceDone = true := h.closeOnce (by rw [hdone]; simp)
  refine ⟨hq.1, hq.2, ?_, ?_⟩
  · simp [doCloseCall, ho]
  · intro id
    exact ⟨rfl, hp⟩

/-- Witness for post_close_send_amended at the reachable post-Close
state ex11. -/
theorem post_close_send_amended_witness :
    ex11.startSenders = [] ∧ (∀ t, t ∈ ex11.tasks → t.isSending = false) ∧
    doCloseCall ex11 = ex11 ∧
    (∀ id, (doJobCall ex11 id).startSenders = ex11.startSenders ∧
      (doJobCall ex11 id).panicked = false) :=
  post_close_send_amended ex11 reach_ex11 (by decide) (by decide)

/-- Claim C9: Close is idempotent.  Once the sync.Once has fired, every
further Close call is a single no-op step that changes nothing (Close
always returns nil in the code), while a first call only marks the Once
and starts the shutdown by blocking on the stop send. -/
theorem close_idempotent (s : Sys) (h : s.onceDone = true) :
    doCloseCall s = s ∧
    ∀ s2 : Sys, s2.onceDone = false → (doCloseCall s2).onceDone = true ∧
      (doCloseCall s2).closeState = ClosePhase.sendingStop := by
  constructor
  · simp [doCloseCall, h]
  · intro s2 h2
    constructor <;> simp [doCloseCall, h2]

/-- Witness for close_idempotent at the concrete state ex5, where Close
has already been called. -/
theorem close_idempotent_witness :
    doCloseCall ex5 = ex5 ∧
    ∀ s2 : Sys, s2.onceDone = false → (doCloseCall s2).onceDone = true ∧
      (doCloseCall s2).closeState = ClosePhase.sendingStop :=
  close_idempotent ex5 (by decide)
